import Mathlib

/-!
Verification of the `flask_fs.storage` module (flask-fs2): a shallow
embedding of the `Storage` facade, its configuration resolver, and the
backend/encryption interfaces it drives, together with theorems settling
the specified properties.

Conventions of the embedding:
* Python strings are Lean `String`s; byte contents are also modelled as
  `String`s (only equality of contents matters to the properties).
* The application configuration mapping is a `List (String × CVal)` read
  as a sequence of assignments (a later binding of the same key wins, as
  in a Python `dict`).
* Exceptions are modelled by `Except Err`; each facade operation returns
  an `Out` record carrying the result, the backend state after the call,
  the ordered list of backend/temporary-file events the call performed,
  and the set of temporary files left on disk.
-/

namespace FlaskFS

instance {ε α : Type} [DecidableEq ε] [DecidableEq α] :
    DecidableEq (Except ε α) := fun x y =>
  match x, y with
  | Except.ok a, Except.ok b =>
    if h : a = b then Decidable.isTrue (by rw [h])
    else Decidable.isFalse (by intro hh; cases hh; exact h rfl)
  | Except.ok _, Except.error _ =>
    Decidable.isFalse (by intro hh; cases hh)
  | Except.error _, Except.ok _ =>
    Decidable.isFalse (by intro hh; cases hh)
  | Except.error d, Except.error e =>
    if h : d = e then Decidable.isTrue (by rw [h])
    else Decidable.isFalse (by intro hh; cases hh; exact h rfl)

/-- Python `str.upper()`, character by character. -/
def upperStr (s : String) : String := String.mk (s.toList.map Char.toUpper)

/-- Python `str.lower()`, character by character. -/
def lowerStr (s : String) : String := String.mk (s.toList.map Char.toLower)

/-- Python `str.startswith(pat)`. -/
def startsWithStr (s pat : String) : Bool := pat.toList.isPrefixOf s.toList

/-- Replacement loop of `str.replace`: replace every leftmost, non-overlapping
occurrence of `pat`, with enough fuel to consume the whole input (the
patterns used here are never empty). -/
def replaceChars : Nat → List Char → List Char → List Char → List Char
  | 0, cs, _, _ => cs
  | Nat.succ fuel, cs, pat, rep =>
    match cs with
    | [] => []
    | c :: tl =>
      if pat.isPrefixOf (c :: tl) then
        rep ++ replaceChars fuel ((c :: tl).drop pat.length) pat rep
      else c :: replaceChars fuel tl pat rep

/-- Python `s.replace(pat, rep)` for a non-empty pattern. -/
def replaceStr (s pat rep : String) : String :=
  String.mk (replaceChars s.toList.length s.toList pat.toList rep.toList)

/-- Configuration values: strings (backend names, URLs, roots) and
extension tuples (allow/deny lists). -/
inductive CVal where
  | str (s : String)
  | strs (l : List String)
deriving DecidableEq, Repr

/-- Effective configuration: a mapping from lower-cased option name to value
(the `Config` object-dict of `storage.py`). -/
def Conf : Type := String → Option CVal

/-- Assignment `config[k] = v` on the object-dict. -/
def Conf.set (c : Conf) (k : String) (v : CVal) : Conf :=
  fun k2 => if k2 = k then some v else c k2

/-- Option preference: the first value when present, otherwise the second. -/
def orD (a b : Option CVal) : Option CVal :=
  match a with
  | some v => some v
  | none => b

/-- Modelled from the spec: the default allowed extension presets exported by
the missing `flask_fs.files` module (`DEFAULTS`); the properties below never
depend on its contents. -/
def DEFAULTS : List String := ["txt", "pdf", "png", "jpg", "jpeg", "gif"]

/-- Seeded defaults (`DEFAULT_CONFIG` written into the fresh config by
`setdefault`): the allow set defaults to `DEFAULTS`, the deny set to `()`. -/
def defaultConf : Conf := fun k =>
  if k = "allow" then some (CVal.strs DEFAULTS)
  else if k = "deny" then some (CVal.strs [])
  else none

/-- Storage-level key pattern `PREFIX = "{0}_FS_"` applied to the
upper-cased storage name. -/
def storagePfx (name : String) : String := upperStr name ++ "_FS_"

/-- Backend-level key pattern `BACKEND_PREFIX = "FS_{0}_"` applied to the
upper-cased backend name. -/
def backendPfx (bn : String) : String := "FS_" ++ upperStr bn ++ "_"

/-- Config keys excluded from backend-level inheritance
(`BACKEND_EXCLUDED_CONFIG`). -/
def BACKEND_EXCLUDED_CONFIG : List String := ["BACKEND", "URL", "ROOT"]

/-- Fully-prefixed excluded keys (`backend_excluded_keys` in `configure`). -/
def excludedKeys (bn : String) : List String :=
  BACKEND_EXCLUDED_CONFIG.map (fun k => backendPfx bn ++ k)

/-- Dictionary lookup on the assignment sequence: the value of the last
binding of `k`, as in a Python `dict`. -/
def appGet (app : List (String × CVal)) (k : String) : Option CVal :=
  match app with
  | [] => none
  | kv :: tl =>
    match appGet tl k with
    | some v => some v
    | none => if kv.1 == k then some kv.2 else none

/-- Key stripping applied to an inheriting key:
`key.replace(prefix, "").lower()`. -/
def stripKey (pfxS key : String) : String := lowerStr (replaceStr key pfxS "")

/-- Whether an application key is taken up by an overlay pass: it must start
with the pass's prefix and not be one of the excluded keys. -/
def hitB (pfxS : String) (excl : List String) (key : String) : Bool :=
  startsWithStr key pfxS && !(excl.contains key)

/-- One iteration of an overlay loop of `configure`: copy the stripped,
lower-cased key into the config when the key matches. -/
def overlayStep (pfxS : String) (excl : List String) (c : Conf)
    (kv : String × CVal) : Conf :=
  if hitB pfxS excl kv.1 then Conf.set c (stripKey pfxS kv.1) kv.2 else c

/-- An overlay loop of `configure`: iterate the application configuration in
order, copying every matching key. -/
def overlay (pfxS : String) (excl : List String) (app : List (String × CVal))
    (c : Conf) : Conf :=
  app.foldl (overlayStep pfxS excl) c

/-- The value contributed for lower-cased key `k` by an overlay pass: the
value of the last matching application entry, when any. -/
def lastHit (pfxS : String) (excl : List String) (app : List (String × CVal))
    (k : String) : Option CVal :=
  match app with
  | [] => none
  | kv :: tl =>
    match lastHit pfxS excl tl k with
    | some v => some v
    | none =>
      if hitB pfxS excl kv.1 && (stripKey pfxS kv.1 == k) then some kv.2
      else none

/-- Error taxonomy of the module. `configurationError` is modelled from the
spec's error-taxonomy section for the missing `flask_fs.errors` module; the
code of `storage.py` itself never raises it. `valueError`, `keyError` and
`typeError` model the Python builtins. -/
inductive Err where
  | valueError (msg : String)
  | keyError (k : String)
  | typeError
  | unauthorizedFileType
  | fileExists (filename : Option String)
  | fileNotFound (filename : String)
  | operationNotSupported
  | httpAbort (status : Nat)
  | backendWriteError
  | configurationError (msg : String)
deriving DecidableEq, Repr

/-- Backend-name resolution at the top of `configure`:
`app.config.get(backend_key, app.config["FS_BACKEND"])` — the global
`FS_BACKEND` default is read eagerly, and the resolved value must be a
string to take `.upper()`. -/
def resolveBackendName (app : List (String × CVal)) (name : String) :
    Except Err String :=
  match appGet app "FS_BACKEND" with
  | none => Except.error (Err.keyError "FS_BACKEND")
  | some dflt =>
    match (appGet app (storagePfx name ++ "BACKEND")).getD dflt with
    | CVal.str s => Except.ok s
    | _ => Except.error Err.typeError

/-- The configuration resolver `Storage.configure`: resolve the backend name,
seed the defaults, overlay the backend-level keys (excluding the identity
keys), overlay the storage-level keys, and reject an unregistered backend
name with `ValueError('Unknown backend "...")`. The registry stands for the
entry-point table `BACKENDS`. -/
def configure (name : String) (registry : List String)
    (app : List (String × CVal)) : Except Err Conf :=
  match resolveBackendName app name with
  | Except.error e => Except.error e
  | Except.ok bn =>
    let c0 := defaultConf
    let c1 := overlay (backendPfx bn) (excludedKeys bn) app c0
    let c2 := overlay (storagePfx name) [] app c1
    if registry.contains bn then Except.ok c2
    else Except.error (Err.valueError ("Unknown backend \"" ++ bn ++ "\""))

/-- Lookup into the effective configuration produced by `configure`,
`none` when configuration failed. -/
def confGet (r : Except Err Conf) (k : String) : Option CVal :=
  match r with
  | Except.ok c => c k
  | Except.error _ => none

/-- Whether a result is a raised `ConfigurationError`. -/
def isConfigErrRes {α : Type} (r : Except Err α) : Bool :=
  match r with
  | Except.error (Err.configurationError _) => true
  | _ => false

/-- Events a facade call performs against the backend or the local disk:
backend-interface calls plus creation/removal of a temporary file. -/
inductive Ev where
  | existsQ (f : String)
  | readB (f : String)
  | readChunksB (f : String)
  | openB (f : String) (mode : String)
  | writeB (f : String)
  | saveB (f : String)
  | deleteB (f : String)
  | copyB (src dst : String)
  | serveB (f : String)
  | tmpCreate (p : String)
  | tmpRemove (p : String)
deriving DecidableEq, Repr

/-- Modelled from the spec: the Encryption Adapter attached to a backend
(section 4.5), with its content-level and file-level encryption entry points,
the matching decryption paths, and the on-disk location its file-level
encryption writes to. -/
structure Encryptor where
  encrypt_content : String → String
  decrypt_entire_file : String → String
  encrypt_file : String → String
  decrypt_file_from_generator : List String → List String
  tmp_path : String

/-- Modelled from the spec: a reference in-memory backend satisfying the
Backend Capability Interface of section 6 — a mapping from path to stored
bytes, the optional encryptor the facade consults, and a flag standing for a
backend whose `write` raises (backends may fail; the facade's contract must
hold on that exit path too). -/
structure Backend where
  files : List (String × String)
  encryptor : Option Encryptor
  writeRaises : Bool

/-- Store-or-replace on the path-to-bytes mapping. -/
def upsert (files : List (String × String)) (f v : String) :
    List (String × String) :=
  (f, v) :: files.filter (fun kv => kv.1 != f)

/-- Backend `exists(path)`. -/
def Backend.existsFile (bk : Backend) (f : String) : Bool :=
  (bk.files.lookup f).isSome

/-- Backend `read(path)`. -/
def Backend.readF (bk : Backend) (f : String) : String :=
  (bk.files.lookup f).getD ""

/-- Backend `read_chunks(path, chunk_size)`: the stored bytes as a lazy
chunk sequence (the reference backend yields one chunk). -/
def Backend.readChunksF (bk : Backend) (f : String) (_chunkSize : Nat) :
    List String :=
  [bk.readF f]

/-- Backend `write(path, content)`: raises when the backend fails, otherwise
stores the bytes. -/
def Backend.writeF (bk : Backend) (f data : String) : Except Err Backend :=
  if bk.writeRaises then Except.error Err.backendWriteError
  else Except.ok ⟨upsert bk.files f data, bk.encryptor, bk.writeRaises⟩

/-- A byte source handed to `Storage.save`: either a
`werkzeug.datastructures.FileStorage` carrying a client-declared filename, or
a plain file object. -/
inductive FileSource where
  | fileStorage (clientFilename : String) (data : String)
  | plainFile (data : String)
deriving DecidableEq, Repr

/-- The bytes carried by a save source. -/
def FileSource.data : FileSource → String
  | FileSource.fileStorage _ d => d
  | FileSource.plainFile d => d

/-- Backend `save(source, path)`. -/
def Backend.saveF (bk : Backend) (src : FileSource) (f : String) : Backend :=
  ⟨upsert bk.files f src.data, bk.encryptor, bk.writeRaises⟩

/-- Backend `copy(src, dst)`. -/
def Backend.copyF (bk : Backend) (src dst : String) : Backend :=
  ⟨upsert bk.files dst (bk.readF src), bk.encryptor, bk.writeRaises⟩

/-- Content handed to `Storage.write`: in-memory bytes, an open stream
(an object with a `read` attribute), or the path of an existing local file;
the latter two are identified by the bytes they deliver. -/
inductive Content where
  | mem (data : String)
  | stream (data : String)
  | file (data : String)
deriving DecidableEq, Repr

/-- The bytes a write content delivers. -/
def Content.data : Content → String
  | Content.mem d => d
  | Content.stream d => d
  | Content.file d => d

/-- The branch test of the encrypted `write` path:
`hasattr(content, "read") or os.path.isfile(content)`. -/
def Content.isStreamOrFile : Content → Bool
  | Content.mem _ => false
  | Content.stream _ => true
  | Content.file _ => true

/-- The static fields of a `Storage`, together with the `allow`/`deny` values
of its effective configuration that `extension_allowed` consults. -/
structure Storage where
  name : String
  extensions : List String
  upload_to : Option String
  overwrite : Bool
  allow : List String
  deny : List String
deriving DecidableEq, Repr

/-- Modelled from the spec: `flask_fs.files.extension` (module missing from
the sources) — the candidate filename's extension without the leading dot,
empty when the name has no dot. -/
def splitExtChars (cs : List Char) : List Char × List Char :=
  let revExt := cs.reverse.takeWhile (fun c => c != '.')
  if revExt.length = cs.length then (cs, [])
  else ((cs.reverse.drop (revExt.length + 1)).reverse, revExt.reverse)

/-- Modelled from the spec: `flask_fs.files.extension` — the extension of a
filename, without the dot. -/
def extension (filename : String) : String :=
  String.mk (splitExtChars filename.toList).2

/-- Modelled from the spec: `flask_fs.files.lower_extension` — lower-case the
extension only, preserving the basename's case. -/
def lower_extension (filename : String) : String :=
  if filename.toList.contains '.' then
    let p := splitExtChars filename.toList
    String.mk p.1 ++ "." ++ lowerStr (String.mk p.2)
  else filename

/-- Characters a safe filename may keep. -/
def isSafeChar (c : Char) : Bool :=
  c.isAlphanum || c == '.' || c == '-' || c == '_'

/-- Modelled from the spec: `werkzeug.utils.secure_filename` (external
collaborator) — strip directory components, then drop unsafe characters,
preserving case. -/
def secure_filename (filename : String) : String :=
  let base := (filename.toList.reverse.takeWhile
    (fun c => c != '/' && c != '\\')).reverse
  String.mk (base.filter isSafeChar)

/-- The extension check `Storage.extension_allowed`: the extension is in the
configured allow set, or it is among the storage's declared extensions and
not in the configured deny set. -/
def extension_allowed (s : Storage) (ext : String) : Bool :=
  s.allow.contains ext || (s.extensions.contains ext && !(s.deny.contains ext))

/-- The file check `Storage.file_allowed`, delegating to `extension_allowed`
on the basename's extension. -/
def file_allowed (s : Storage) (_storage : FileSource) (basename : String) :
    Bool :=
  extension_allowed s (extension basename)

/-- Python truthiness of the optional filename: `not filename` holds for
`None` and for the empty string. -/
def falsy : Option String → Bool
  | none => true
  | some s => s == ""

/-- The filename-derivation step at the top of `Storage.save`: with no
truthy explicit filename and a `FileStorage` source, derive
`lower_extension(secure_filename(wfs.filename))`. -/
def derivedName (src : FileSource) (filename : Option String) :
    Option String :=
  if falsy filename then
    match src with
    | FileSource.fileStorage cn _ =>
      some (lower_extension (secure_filename cn))
    | FileSource.plainFile _ => filename
  else filename

/-- The outcome of one facade call: the returned-or-raised result, the
backend state after the call, the ordered event trace, and the temporary
files still on disk when the call exits. -/
structure Out (α : Type) where
  res : Except Err α
  bk : Backend
  trace : List Ev
  tmps : List (String × String)

/-- `Storage.read`: existence check first (`FileNotFound` on absence), then
the backend read, decrypted through the encryptor when one is configured. -/
def read (bk : Backend) (filename : String) : Out String :=
  if !(bk.existsFile filename) then
    ⟨Except.error (Err.fileNotFound filename), bk, [Ev.existsQ filename], []⟩
  else
    let content := bk.readF filename
    match bk.encryptor with
    | some e =>
      ⟨Except.ok (e.decrypt_entire_file content), bk,
        [Ev.existsQ filename, Ev.readB filename], []⟩
    | none =>
      ⟨Except.ok content, bk, [Ev.existsQ filename, Ev.readB filename], []⟩

/-- `Storage.read_chunks`: existence check first, then the backend chunk
generator, routed through the generator decryption path when an encryptor is
configured. -/
def read_chunks (bk : Backend) (filename : String) (chunkSize : Nat) :
    Out (List String) :=
  if !(bk.existsFile filename) then
    ⟨Except.error (Err.fileNotFound filename), bk, [Ev.existsQ filename], []⟩
  else
    let gen := bk.readChunksF filename chunkSize
    match bk.encryptor with
    | some e =>
      ⟨Except.ok (e.decrypt_file_from_generator gen), bk,
        [Ev.existsQ filename, Ev.readChunksB filename], []⟩
    | none =>
      ⟨Except.ok gen, bk,
        [Ev.existsQ filename, Ev.readChunksB filename], []⟩

/-- `Storage.open`: in a mode containing `r`, an existence check precedes the
delegation and absence raises `FileNotFound`; otherwise the call delegates
directly. -/
def openF (bk : Backend) (filename mode : String) : Out String :=
  if mode.toList.contains 'r' && !(bk.existsFile filename) then
    ⟨Except.error (Err.fileNotFound filename), bk, [Ev.existsQ filename], []⟩
  else
    ⟨Except.ok (bk.readF filename), bk,
      (if mode.toList.contains 'r' then [Ev.existsQ filename] else []) ++
        [Ev.openB filename mode], []⟩

/-- `Storage.write`: raise `FileExists()` when neither the storage-level nor
the per-call overwrite flag is set and the file exists; then, with an
encryptor, route a stream-or-path content through file-level encryption via
a temporary on-disk file removed in a `finally` block, and an in-memory
content through content-level encryption; without an encryptor, delegate the
raw content. -/
def write (s : Storage) (bk : Backend) (filename : String) (content : Content)
    (overwrite : Bool) : Out Unit :=
  let pre : List Ev :=
    if !s.overwrite && !overwrite then [Ev.existsQ filename] else []
  if !s.overwrite && !overwrite && bk.existsFile filename then
    ⟨Except.error (Err.fileExists none), bk, pre, []⟩
  else
    match bk.encryptor with
    | some e =>
      if content.isStreamOrFile then
        let cipher := e.encrypt_file content.data
        let tmps1 : List (String × String) := [(e.tmp_path, cipher)]
        let streamData := (tmps1.lookup e.tmp_path).getD ""
        match bk.writeF filename streamData with
        | Except.ok bk2 =>
          ⟨Except.ok (), bk2,
            pre ++ [Ev.tmpCreate e.tmp_path, Ev.writeB filename,
              Ev.tmpRemove e.tmp_path], []⟩
        | Except.error er =>
          ⟨Except.error er, bk,
            pre ++ [Ev.tmpCreate e.tmp_path, Ev.writeB filename,
              Ev.tmpRemove e.tmp_path], []⟩
      else
        match bk.writeF filename (e.encrypt_content content.data) with
        | Except.ok bk2 => ⟨Except.ok (), bk2, pre ++ [Ev.writeB filename], []⟩
        | Except.error er =>
          ⟨Except.error er, bk, pre ++ [Ev.writeB filename], []⟩
    | none =>
      match bk.writeF filename content.data with
      | Except.ok bk2 => ⟨Except.ok (), bk2, pre ++ [Ev.writeB filename], []⟩
      | Except.error er =>
        ⟨Except.error er, bk, pre ++ [Ev.writeB filename], []⟩

/-- Path joining of the save pipeline: `"/".join((segment, filename))` when
the optional prefix or upload destination is present. -/
def prefixJoin (seg : Option String) (f : String) : String :=
  match seg with
  | some p => p ++ "/" ++ f
  | none => f

/-- `Storage.save`: derive the filename when possible, reject a missing
filename with `ValueError`, reject a disallowed type with
`UnauthorizedFileType`, join the optional path segments, resolve the
effective overwrite flag, reject an existing target with
`FileExists(filename)`, and only then delegate to the backend, returning the
final path. -/
def save (s : Storage) (bk : Backend) (src : FileSource)
    (filename : Option String) (pfxArg : Option String)
    (overwrite : Option Bool) : Out String :=
  let fn0 := derivedName src filename
  if falsy fn0 then
    ⟨Except.error (Err.valueError "filename is required"), bk, [], []⟩
  else
    let f := fn0.getD ""
    if !(file_allowed s src f) then
      ⟨Except.error Err.unauthorizedFileType, bk, [], []⟩
    else
      let f1 := prefixJoin pfxArg f
      let f2 := prefixJoin s.upload_to f1
      let ow := overwrite.getD s.overwrite
      if !ow && bk.existsFile f2 then
        ⟨Except.error (Err.fileExists (some f2)), bk, [Ev.existsQ f2], []⟩
      else
        ⟨Except.ok f2, bk.saveF src f2,
          (if ow then [] else [Ev.existsQ f2]) ++ [Ev.saveB f2], []⟩

/-- `Storage.copy`: the source must exist (`FileNotFound` otherwise), then
the copy is delegated to the backend. -/
def copy (bk : Backend) (src dst : String) : Out Unit :=
  if !(bk.existsFile src) then
    ⟨Except.error (Err.fileNotFound src), bk, [Ev.existsQ src], []⟩
  else
    ⟨Except.ok (), bk.copyF src dst, [Ev.existsQ src, Ev.copyB src dst], []⟩

/-- `Storage.serve`: abort the request with HTTP 404 when the file does not
exist, otherwise delegate to the backend's `serve`. -/
def serve (bk : Backend) (filename : String) : Out String :=
  if !(bk.existsFile filename) then
    ⟨Except.error (Err.httpAbort 404), bk, [Ev.existsQ filename], []⟩
  else
    ⟨Except.ok (bk.readF filename), bk,
      [Ev.existsQ filename, Ev.serveB filename], []⟩

/-- Whether a result is a raised exception. -/
def isErr {α : Type} : Except Err α → Bool
  | Except.error _ => true
  | Except.ok _ => false

/-- Whether a trace contains a backend `save` delegation. -/
def hasSaveEv (tr : List Ev) : Bool :=
  tr.any fun e =>
    match e with
    | Ev.saveB _ => true
    | _ => false

/-- Whether a result is a raised `FileNotFound`. -/
def isFileNotFoundRes {α : Type} (r : Except Err α) : Bool :=
  match r with
  | Except.error (Err.fileNotFound _) => true
  | _ => false

/-! ### Lemmas about the configuration overlay -/

theorem overlay_cons (pfxS : String) (excl : List String)
    (kv : String × CVal) (tl : List (String × CVal)) (c : Conf) :
    overlay pfxS excl (kv :: tl) c =
      overlay pfxS excl tl (overlayStep pfxS excl c kv) := rfl

/-- Looking a key up after an overlay pass returns the last matching entry's
value when one exists, and the underlying configuration's value otherwise. -/
theorem overlay_lookup (pfxS : String) (excl : List String)
    (app : List (String × CVal)) (c : Conf) (k : String) :
    overlay pfxS excl app c k = orD (lastHit pfxS excl app k) (c k) := by
  induction app generalizing c with
  | nil => rfl
  | cons kv tl ih =>
    rw [overlay_cons, ih]
    cases hlt : lastHit pfxS excl tl k with
    | some v => simp [lastHit, hlt, orD]
    | none =>
      simp only [lastHit, hlt, orD]
      by_cases hb : hitB pfxS excl kv.1 = true
      · by_cases hk : stripKey pfxS kv.1 = k
        · simp [overlayStep, hb, Conf.set, hk]
        · simp [overlayStep, hb, Conf.set, hk, Ne.symm hk]
      · simp [overlayStep, hb]

/-! ### Claim theorems -/

/-- Scenario storage of C1: configured with `allow=()`, declared extensions
`("png",)` and `deny=("png",)`. -/
def sDenyPng : Storage := ⟨"files", ["png"], none, false, [], ["png"]⟩

/-- C1: `extension_allowed(ext)` holds exactly when `ext` is in the effective
allow set, or is among the storage's declared extensions and not in the deny
set; and on the storage configured with `allow=()`, declared extensions
`("png",)`, `deny=("png",)`, saving "a.png" raises `UnauthorizedFileType`
with no backend call and the backend state unchanged. -/
theorem extension_allowed_iff_and_deny_scenario :
    (∀ (s : Storage) (ext : String),
      extension_allowed s ext = true ↔
        (ext ∈ s.allow ∨ (ext ∈ s.extensions ∧ ext ∉ s.deny)))
    ∧ (∀ (bk : Backend) (d : String),
        save sDenyPng bk (FileSource.plainFile d) (some "a.png") none none =
          ⟨Except.error Err.unauthorizedFileType, bk, [], []⟩) := by
  constructor
  · intro s ext
    simp [extension_allowed, List.contains, List.elem_iff, Bool.or_eq_true,
      Bool.and_eq_true]
  · intro bk d
    rfl

/-- Witness for C1 at the extension "png" and the scenario's inputs. -/
theorem extension_allowed_iff_and_deny_scenario_witness :
    (extension_allowed sDenyPng "png" = true ↔
      ("png" ∈ sDenyPng.allow ∨
        ("png" ∈ sDenyPng.extensions ∧ "png" ∉ sDenyPng.deny)))
    ∧ save sDenyPng ⟨[], none, false⟩ (FileSource.plainFile "d")
        (some "a.png") none none =
      ⟨Except.error Err.unauthorizedFileType, ⟨[], none, false⟩, [], []⟩ :=
  ⟨extension_allowed_iff_and_deny_scenario.1 sDenyPng "png",
    extension_allowed_iff_and_deny_scenario.2 ⟨[], none, false⟩ "d"⟩

/-- C2: the effective configuration resolved by `configure` gives, for every
lower-cased key, the value of the last storage-level binding when one exists,
otherwise the value of the last non-excluded backend-level binding, otherwise
the seeded default; and the backend-level identity keys `BACKEND`, `URL` and
`ROOT` contribute nothing to backend-level inheritance. -/
theorem configure_precedence (name : String) (registry : List String)
    (app : List (String × CVal)) (bn : String) (k : String)
    (hbn : resolveBackendName app name = Except.ok bn)
    (hreg : registry.contains bn = true) :
    (confGet (configure name registry app) k =
      orD (lastHit (storagePfx name) [] app k)
        (orD (lastHit (backendPfx bn) (excludedKeys bn) app k)
          (defaultConf k)))
    ∧ (∀ (v1 v2 v3 : CVal) (k2 : String),
        lastHit (backendPfx bn) (excludedKeys bn)
          [(backendPfx bn ++ "BACKEND", v1), (backendPfx bn ++ "URL", v2),
            (backendPfx bn ++ "ROOT", v3)] k2 = none) := by
  constructor
  · have hcfg : configure name registry app =
        Except.ok (overlay (storagePfx name) [] app
          (overlay (backendPfx bn) (excludedKeys bn) app defaultConf)) := by
      simp [configure, hbn]
      exact List.elem_iff.mp hreg
    rw [hcfg]
    show overlay (storagePfx name) [] app
      (overlay (backendPfx bn) (excludedKeys bn) app defaultConf) k = _
    rw [overlay_lookup, overlay_lookup]
  · intro v1 v2 v3 k2
    have h1 : backendPfx bn ++ "BACKEND" ∈ excludedKeys bn := by
      simp [excludedKeys, BACKEND_EXCLUDED_CONFIG]
    have h2 : backendPfx bn ++ "URL" ∈ excludedKeys bn := by
      simp [excludedKeys, BACKEND_EXCLUDED_CONFIG]
    have h3 : backendPfx bn ++ "ROOT" ∈ excludedKeys bn := by
      simp [excludedKeys, BACKEND_EXCLUDED_CONFIG]
    simp [lastHit, hitB, h1, h2, h3]

/-- Application configuration used to witness the precedence theorem: the key
`ALLOW` is bound at backend level and at storage level, and is also seeded as
a default. -/
def appPrec : List (String × CVal) :=
  [("FS_BACKEND", CVal.str "local"), ("FS_LOCAL_ALLOW", CVal.strs ["gif"]),
    ("FILES_FS_ALLOW", CVal.strs ["png"])]

/-- Witness for C2 at a concrete configuration. -/
theorem configure_precedence_witness :
    (confGet (configure "files" ["local"] appPrec) "allow" =
      orD (lastHit (storagePfx "files") [] appPrec "allow")
        (orD (lastHit (backendPfx "local") (excludedKeys "local") appPrec
          "allow") (defaultConf "allow")))
    ∧ lastHit (backendPfx "local") (excludedKeys "local")
        [(backendPfx "local" ++ "BACKEND", CVal.str "x"),
          (backendPfx "local" ++ "URL", CVal.str "y"),
          (backendPfx "local" ++ "ROOT", CVal.str "z")] "url" = none := by
  have h := configure_precedence "files" ["local"] appPrec "local" "allow"
    (by decide) (by decide)
  exact ⟨h.1, h.2 (CVal.str "x") (CVal.str "y") (CVal.str "z") "url"⟩

/-- C6 (counterexample to the stated error class): with the registry missing
the resolved backend name, `configure` raises Python's `ValueError`, not the
spec's `ConfigurationError`. -/
theorem configure_unknown_backend_raises_valueerror :
    configure "files" ["local"] [("FS_BACKEND", CVal.str "s3")] =
      Except.error (Err.valueError "Unknown backend \"s3\"")
    ∧ isConfigErrRes
        (configure "files" ["local"] [("FS_BACKEND", CVal.str "s3")]) =
      false := by
  exact ⟨rfl, rfl⟩

/-- C6 (amended): when the resolved backend name is not in the registry,
`configure` fails at configure time with a `ValueError` naming the unknown
backend — before any backend is instantiated or any storage I/O is
possible. -/
theorem configure_unknown_backend_fails (name : String)
    (registry : List String) (app : List (String × CVal)) (bn : String)
    (hbn : resolveBackendName app name = Except.ok bn)
    (hreg : registry.contains bn = false) :
    configure name registry app =
      Except.error (Err.valueError ("Unknown backend \"" ++ bn ++ "\"")) := by
  have hmem : bn ∉ registry := by
    simpa [List.contains, List.elem_iff] using hreg
  simp [configure, hbn, hmem]

/-- Witness for the amended C6 at a concrete configuration. -/
theorem configure_unknown_backend_fails_witness :
    configure "avatars" ["local"] [("FS_BACKEND", CVal.str "mock")] =
      Except.error
        (Err.valueError ("Unknown backend \"" ++ "mock" ++ "\"")) :=
  configure_unknown_backend_fails "avatars" ["local"]
    [("FS_BACKEND", CVal.str "mock")] "mock" (by decide) (by decide)

/-- Scenario storage of C7: `pdf` files allowed, no upload destination, no
overwrite. -/
def sPdf : Storage := ⟨"files", ["pdf"], none, false, ["pdf"], []⟩

/-- C7 (counterexample): saving a `FileStorage` whose client-declared
filename is "Report.PDF" with no explicit filename stores under and returns
"Report.pdf" — the basename's case is preserved — not "report.pdf" as the
claim states. -/
theorem save_report_pdf_counterexample :
    (save sPdf ⟨[], none, false⟩ (FileSource.fileStorage "Report.PDF" "d")
      none none none).res = Except.ok "Report.pdf"
    ∧ ("Report.pdf" : String) ≠ "report.pdf" := by
  exact ⟨by decide, by decide⟩

/-- C7 (amended): the safe filename derived for the client-declared name
"Report.PDF" is "Report.pdf" (directory components and unsafe characters
stripped, extension lower-cased, basename case preserved), and saving the
`FileStorage` with no explicit filename stores under and returns it. -/
theorem save_report_pdf_amended (bk : Backend) (d : String)
    (hex : bk.existsFile "Report.pdf" = false) :
    lower_extension (secure_filename "Report.PDF") = "Report.pdf"
    ∧ (save sPdf bk (FileSource.fileStorage "Report.PDF" d) none none
        none).res = Except.ok "Report.pdf" := by
  have hfn : lower_extension (secure_filename "Report.PDF") =
      "Report.pdf" := by decide
  refine ⟨hfn, ?_⟩
  have hname : derivedName (FileSource.fileStorage "Report.PDF" d) none =
      some "Report.pdf" := by
    simp [derivedName, falsy, hfn]
  have hall : file_allowed ⟨"files", ["pdf"], none, false, ["pdf"], []⟩
      (FileSource.fileStorage "Report.PDF" d) "Report.pdf" = true := by
    simp only [file_allowed]
    decide
  simp [save, hname, falsy, sPdf, hex, hall, prefixJoin]

/-- Witness for the amended C7 on an empty backend. -/
theorem save_report_pdf_amended_witness :
    lower_extension (secure_filename "Report.PDF") = "Report.pdf"
    ∧ (save sPdf ⟨[], none, false⟩ (FileSource.fileStorage "Report.PDF" "d")
        none none none).res = Except.ok "Report.pdf" :=
  save_report_pdf_amended ⟨[], none, false⟩ "d" (by decide)

/-- C3: every failing `save` — `ValueError` for a missing filename,
`UnauthorizedFileType` from extension validation, or `FileExists` from the
overwrite check — performs no backend mutation: the backend state is
returned unchanged and `backend.save` is never invoked. -/
theorem save_rejection_no_mutation (s : Storage) (bk : Backend)
    (src : FileSource) (filename pfxArg : Option String)
    (overwrite : Option Bool)
    (h : isErr (save s bk src filename pfxArg overwrite).res = true) :
    (save s bk src filename pfxArg overwrite).bk = bk
    ∧ hasSaveEv (save s bk src filename pfxArg overwrite).trace = false := by
  by_cases h1 : falsy (derivedName src filename) = true
  · constructor <;> simp [save, h1, hasSaveEv]
  · have h1b : falsy (derivedName src filename) = false := by
      simpa using h1
    by_cases h2 : file_allowed s src ((derivedName src filename).getD "") =
        true
    · by_cases h3 : (!(overwrite.getD s.overwrite) &&
          bk.existsFile (prefixJoin s.upload_to
            (prefixJoin pfxArg ((derivedName src filename).getD "")))) = true
      · constructor <;> simp [save, h1b, h2, h3, hasSaveEv]
      · exfalso
        have h3b : (!(overwrite.getD s.overwrite) &&
            bk.existsFile (prefixJoin s.upload_to
              (prefixJoin pfxArg ((derivedName src filename).getD "")))) =
            false := by simpa using h3
        simp [save, h1b, h2, h3b, isErr] at h
    · have h2b : file_allowed s src ((derivedName src filename).getD "") =
          false := by simpa using h2
      constructor <;> simp [save, h1b, h2b, hasSaveEv]

/-- Witness for C3: an explicit filename whose extension is denied. -/
theorem save_rejection_no_mutation_witness :
    (save sDenyPng ⟨[], none, false⟩ (FileSource.plainFile "d")
      (some "a.png") none none).bk = ⟨[], none, false⟩
    ∧ hasSaveEv (save sDenyPng ⟨[], none, false⟩ (FileSource.plainFile "d")
        (some "a.png") none none).trace = false :=
  save_rejection_no_mutation sDenyPng ⟨[], none, false⟩
    (FileSource.plainFile "d") (some "a.png") none none (by decide)

/-- C4: `read`, `read_chunks` and `open` in a mode containing "r" raise
`FileNotFound` exactly when the backend reports the file absent, and the
existence check precedes any delegated backend read; `copy` raises
`FileNotFound` when the source is absent and delegates only when it
exists. -/
theorem read_paths_check_existence_first (bk : Backend)
    (f mode src dst : String) (cs : Nat) :
    ((read bk f).res = Except.error (Err.fileNotFound f) ↔
      bk.existsFile f = false)
    ∧ (bk.existsFile f = false → (read bk f).trace = [Ev.existsQ f])
    ∧ (bk.existsFile f = true →
        (read bk f).trace = [Ev.existsQ f, Ev.readB f])
    ∧ ((read_chunks bk f cs).res = Except.error (Err.fileNotFound f) ↔
        bk.existsFile f = false)
    ∧ (bk.existsFile f = false →
        (read_chunks bk f cs).trace = [Ev.existsQ f])
    ∧ (bk.existsFile f = true →
        (read_chunks bk f cs).trace = [Ev.existsQ f, Ev.readChunksB f])
    ∧ (mode.toList.contains 'r' = true →
        ((openF bk f mode).res = Except.error (Err.fileNotFound f) ↔
          bk.existsFile f = false))
    ∧ (mode.toList.contains 'r' = true → bk.existsFile f = false →
        (openF bk f mode).trace = [Ev.existsQ f])
    ∧ (mode.toList.contains 'r' = true → bk.existsFile f = true →
        (openF bk f mode).trace = [Ev.existsQ f, Ev.openB f mode])
    ∧ ((copy bk src dst).res = Except.error (Err.fileNotFound src) ↔
        bk.existsFile src = false)
    ∧ (bk.existsFile src = false → (copy bk src dst).trace = [Ev.existsQ src])
    ∧ (bk.existsFile src = true →
        (copy bk src dst).trace = [Ev.existsQ src, Ev.copyB src dst]) := by
  refine ⟨?_, ?_, ?_, ?_, ?_, ?_, ?_, ?_, ?_, ?_, ?_, ?_⟩
  · cases hx : bk.existsFile f <;> cases henc : bk.encryptor <;>
      simp [read, hx, henc]
  · intro hx
    simp [read, hx]
  · intro hx
    cases henc : bk.encryptor <;> simp [read, hx, henc]
  · cases hx : bk.existsFile f <;> cases henc : bk.encryptor <;>
      simp [read_chunks, hx, henc]
  · intro hx
    simp [read_chunks, hx]
  · intro hx
    cases henc : bk.encryptor <;> simp [read_chunks, hx, henc]
  · intro hr
    have hr2 : 'r' ∈ mode.data := List.elem_iff.mp hr
    cases hx : bk.existsFile f <;> simp [openF, hr2, hx]
  · intro hr hx
    have hr2 : 'r' ∈ mode.data := List.elem_iff.mp hr
    simp [openF, hr2, hx]
  · intro hr hx
    have hr2 : 'r' ∈ mode.data := List.elem_iff.mp hr
    simp [openF, hr2, hx]
  · cases hx : bk.existsFile src <;> simp [copy, hx]
  · intro hx
    simp [copy, hx]
  · intro hx
    simp [copy, hx]

/-- Witness for C4: read and copy on a one-file backend, open in "rb" mode
on an absent file. -/
theorem read_paths_check_existence_first_witness :
    ((read ⟨[("a", "v")], none, false⟩ "b").res =
      Except.error (Err.fileNotFound "b"))
    ∧ (openF ⟨[("a", "v")], none, false⟩ "b" "rb").trace = [Ev.existsQ "b"]
    ∧ (copy ⟨[("a", "v")], none, false⟩ "a" "c").trace =
        [Ev.existsQ "a", Ev.copyB "a" "c"] := by
  have h := read_paths_check_existence_first ⟨[("a", "v")], none, false⟩
    "b" "rb" "a" "c" 1024
  exact ⟨h.1.mpr (by decide), h.2.2.2.2.2.2.2.1 (by decide) (by decide),
    h.2.2.2.2.2.2.2.2.2.2.2 (by decide)⟩

/-- C5: `write` raises `FileExists` exactly when the file exists and both
the per-call and the storage-level overwrite flags are false; when either
flag is set, the call proceeds to the backend write. -/
theorem write_overwrite_policy (s : Storage) (bk : Backend) (f : String)
    (content : Content) (ow : Bool) :
    ((write s bk f content ow).res = Except.error (Err.fileExists none) ↔
      (bk.existsFile f = true ∧ ow = false ∧ s.overwrite = false))
    ∧ ((ow = true ∨ s.overwrite = true) →
        Ev.writeB f ∈ (write s bk f content ow).trace) := by
  constructor
  · cases hso : s.overwrite <;> cases how : ow <;>
      cases hx : bk.existsFile f <;> cases henc : bk.encryptor <;>
      cases content <;> cases hwr : bk.writeRaises <;>
      simp [write, Backend.writeF, Content.isStreamOrFile, hso, hx, henc, hwr]
  · intro hflag
    cases hso : s.overwrite <;> cases how : ow <;>
      cases hx : bk.existsFile f <;> cases henc : bk.encryptor <;>
      cases content <;> cases hwr : bk.writeRaises <;>
      simp [write, Backend.writeF, Content.isStreamOrFile, hso, hx, henc,
        hwr] <;>
      simp [hso, how] at hflag

/-- Witness for C5: an overwriting write on an existing file reaches the
backend. -/
theorem write_overwrite_policy_witness :
    Ev.writeB "a" ∈ (write ⟨"files", [], none, false, [], []⟩
      ⟨[("a", "v")], none, false⟩ "a" (Content.mem "w") true).trace :=
  (write_overwrite_policy ⟨"files", [], none, false, [], []⟩
    ⟨[("a", "v")], none, false⟩ "a" (Content.mem "w") true).2 (Or.inl rfl)

/-- C10: `serve` aborts the request with HTTP 404 exactly when the backend
reports the file absent — it never raises the typed `FileNotFound` — and the
backend's `serve` is invoked exactly when the file exists. -/
theorem serve_aborts_404 (bk : Backend) (f : String) :
    ((serve bk f).res = Except.error (Err.httpAbort 404) ↔
      bk.existsFile f = false)
    ∧ isFileNotFoundRes (serve bk f).res = false
    ∧ (Ev.serveB f ∈ (serve bk f).trace ↔ bk.existsFile f = true) := by
  refine ⟨?_, ?_, ?_⟩ <;>
    cases hx : bk.existsFile f <;> simp [serve, isFileNotFoundRes, hx]

/-- Witness for C10 on a one-file backend: an absent file aborts with 404,
an existing file reaches the backend's serve. -/
theorem serve_aborts_404_witness :
    (serve ⟨[("a", "v")], none, false⟩ "b").res =
      Except.error (Err.httpAbort 404)
    ∧ isFileNotFoundRes (serve ⟨[("a", "v")], none, false⟩ "b").res = false
    ∧ Ev.serveB "a" ∈ (serve ⟨[("a", "v")], none, false⟩ "a").trace :=
  ⟨(serve_aborts_404 ⟨[("a", "v")], none, false⟩ "b").1.mpr (by decide),
    (serve_aborts_404 ⟨[("a", "v")], none, false⟩ "b").2.1,
    (serve_aborts_404 ⟨[("a", "v")], none, false⟩ "a").2.2.mpr (by decide)⟩

/-- C8: with an encryptor configured, a `read` following a `write` of any
content returns the original plaintext without caller-side decryption, given
that the encryptor's decryption is a left inverse of both its encryption
entry points and the backend returns what it was given to store — for the
in-memory branch as well as for the stream and existing-file branches of
`write`. -/
theorem write_read_roundtrip_encrypted (s : Storage) (bk : Backend)
    (e : Encryptor) (p data : String) (c : Content)
    (henc : bk.encryptor = some e)
    (hw : bk.writeRaises = false)
    (h1 : e.decrypt_entire_file (e.encrypt_content data) = data)
    (h2 : e.decrypt_entire_file (e.encrypt_file data) = data)
    (hc : c = Content.mem data ∨ c = Content.stream data ∨
      c = Content.file data) :
    (read (write s bk p c true).bk p).res = Except.ok data := by
  rcases hc with h | h | h <;> subst h <;>
    simp [write, henc, hw, Content.isStreamOrFile, Content.data,
      Backend.writeF, read, Backend.existsFile, Backend.readF, upsert,
      List.lookup, h1, h2]

/-- Reversible sample encryptor used by the round-trip witness. -/
def encSample : Encryptor :=
  ⟨fun s => "X" ++ s, fun s => s.drop 1, fun s => "X" ++ s, fun g => g,
    "tmpfile"⟩

/-- Witness for C8 on a concrete in-memory write. -/
theorem write_read_roundtrip_encrypted_witness :
    (read (write ⟨"files", [], none, false, [], []⟩
      ⟨[], some encSample, false⟩ "p" (Content.mem "hi") true).bk "p").res =
      Except.ok "hi" :=
  write_read_roundtrip_encrypted ⟨"files", [], none, false, [], []⟩
    ⟨[], some encSample, false⟩ encSample "p" "hi" (Content.mem "hi") rfl rfl
    (by decide) (by decide) (Or.inl rfl)

/-- C9: when an encryptor is configured and `write` receives a stream or an
existing file, the temporary encrypted file is created and then removed on
every exit path — no temporary file remains whether the backend write
succeeds or raises. -/
theorem write_tmp_file_cleanup (s : Storage) (bk : Backend) (e : Encryptor)
    (p : String) (data : String) (c : Content) (ow : Bool)
    (henc : bk.encryptor = some e)
    (hc : c = Content.stream data ∨ c = Content.file data)
    (hpass : s.overwrite = true ∨ ow = true ∨ bk.existsFile p = false) :
    (write s bk p c ow).tmps = []
    ∧ Ev.tmpCreate e.tmp_path ∈ (write s bk p c ow).trace
    ∧ Ev.tmpRemove e.tmp_path ∈ (write s bk p c ow).trace := by
  have hcond : (!s.overwrite && !ow && bk.existsFile p) = false := by
    rcases hpass with h | h | h <;> simp [h]
  rcases hc with h | h <;> subst h <;>
    cases hwr : bk.writeRaises <;>
    simp [write, henc, hcond, Content.isStreamOrFile, Backend.writeF, hwr]

/-- Witness for C9 on a stream write against a backend whose write raises. -/
theorem write_tmp_file_cleanup_witness :
    (write ⟨"files", [], none, false, [], []⟩ ⟨[], some encSample, true⟩
      "p" (Content.stream "hi") false).tmps = []
    ∧ Ev.tmpCreate encSample.tmp_path ∈
        (write ⟨"files", [], none, false, [], []⟩ ⟨[], some encSample, true⟩
          "p" (Content.stream "hi") false).trace
    ∧ Ev.tmpRemove encSample.tmp_path ∈
        (write ⟨"files", [], none, false, [], []⟩ ⟨[], some encSample, true⟩
          "p" (Content.stream "hi") false).trace :=
  write_tmp_file_cleanup ⟨"files", [], none, false, [], []⟩
    ⟨[], some encSample, true⟩ encSample "p" "hi" (Content.stream "hi") false
    rfl (Or.inl rfl) (Or.inr (Or.inr (by decide)))

end FlaskFS
